import Mathlib

/-!
Shallow embedding of the adaptive trial activity in `src/page.tsx`:
the Frustration Scorer (`computeFrustration`), the local Decision Policy
(the fallback branch of `onPick`), the Decision Gateway (the
`try`/`catch` around the remote call in `onPick`), the Round Generator
(`makeRound` with its helpers `shuffle`, `pickOne`, `makeBaseSwatch`),
and the bounded attempt log (`setAttempts` in `onPick`).

JavaScript numbers are modelled as rationals (`ℚ`), the nonnegative
integer counters as `ℕ`.  All randomness (`Math.random`) is modelled by
explicit parameters: an index choice for each call site, so that every
theorem quantifies over every possible random outcome.
-/

namespace TFE

/-- `type Level = 'easy' | 'medium' | 'hard'` (src/page.tsx line 5). -/
inductive Level
  | easy
  | medium
  | hard
deriving DecidableEq, Repr, Inhabited, Fintype

/-- Direction argument of `nextLevel` (src/page.tsx line 348). -/
inductive Dir
  | up
  | down
deriving DecidableEq, Repr

/-- `type ColorKey = 'rojo' | 'azul' | 'amarillo'` (src/page.tsx line 7). -/
inductive ColorKey
  | rojo
  | azul
  | amarillo
deriving DecidableEq, Repr, Inhabited, Fintype

/-- The string name of a color key, used to build swatch ids. -/
def colorName : ColorKey → String
  | .rojo => "rojo"
  | .azul => "azul"
  | .amarillo => "amarillo"

/-- `type Swatch` (src/page.tsx lines 9-13). -/
structure Swatch where
  id : String
  label : ColorKey
  hex : String
deriving DecidableEq, Repr

instance : Inhabited Swatch := ⟨⟨"", .rojo, ""⟩⟩

/-- `type Round` (src/page.tsx lines 15-20). -/
structure Round where
  id : String
  target : ColorKey
  level : Level
  options : List Swatch
deriving DecidableEq, Repr

/-- `action` values of a decision (src/page.tsx line 38). -/
inductive Action
  | keep
  | support
  | ease
deriving DecidableEq, Repr

/-- `source` values of a decision (src/page.tsx line 39). -/
inductive Source
  | backend
  | fallback
deriving DecidableEq, Repr

/-- `rule` values of an attempt (src/page.tsx line 42). -/
inductive Rule
  | none
  | support_by_frustration
  | ease_by_frustration
  | levelup_by_streak
deriving DecidableEq, Repr

/-- `frustrationComponents` (src/page.tsx lines 31-37). -/
structure FComponents where
  e : ℚ
  h : ℚ
  r : ℚ
  t : ℚ
  s : ℚ
deriving DecidableEq, Repr

/-- The value/components pair returned by `computeFrustration`
(src/page.tsx lines 138-141). -/
structure Frustration where
  value : ℚ
  components : FComponents
deriving DecidableEq, Repr

/-- `type Attempt` (src/page.tsx lines 22-44). -/
structure Attempt where
  roundId : String
  target : ColorKey
  chosen : ColorKey
  correct : Bool
  hintsUsed : ℕ
  ts : ℕ
  latencySec : ℚ
  frustration : ℚ
  frustrationComponents : FComponents
  action : Action
  source : Source
  levelBefore : Level
  levelAfter : Level
  rule : Rule
deriving DecidableEq, Repr

/-- `const MAX_ATTEMPTS = 100` (src/page.tsx line 54). -/
def MAX_ATTEMPTS : ℕ := 100

/-- `const BASE_COLOR` (src/page.tsx lines 108-112). -/
def BASE_COLOR : ColorKey → String
  | .rojo => "#FF3B30"
  | .azul => "#007AFF"
  | .amarillo => "#FFD60A"

/-- `const SWATCHES` (src/page.tsx lines 64-106). -/
def SWATCHES : ColorKey → Level → List Swatch
  | .rojo, .easy => [⟨"rojo_base", .rojo, "#FF5A5F"⟩]
  | .rojo, .medium =>
      [⟨"rojo_base", .rojo, "#FF5A5F"⟩,
       ⟨"rojo_rosado", .rojo, "#FF7AA2"⟩,
       ⟨"rojo_naranja", .rojo, "#FF6B3D"⟩]
  | .rojo, .hard =>
      [⟨"rojo_base", .rojo, "#FF5A5F"⟩,
       ⟨"rojo_coral", .rojo, "#FF6F61"⟩,
       ⟨"rojo_salmon", .rojo, "#FF7F7F"⟩]
  | .azul, .easy => [⟨"azul_base", .azul, "#3B82F6"⟩]
  | .azul, .medium =>
      [⟨"azul_base", .azul, "#3B82F6"⟩,
       ⟨"azul_cielo", .azul, "#60A5FA"⟩,
       ⟨"azul_profundo", .azul, "#2563EB"⟩]
  | .azul, .hard =>
      [⟨"azul_base", .azul, "#3B82F6"⟩,
       ⟨"azul_indigo", .azul, "#4F46E5"⟩,
       ⟨"azul_marino", .azul, "#1D4ED8"⟩]
  | .amarillo, .easy => [⟨"amarillo_base", .amarillo, "#FBBF24"⟩]
  | .amarillo, .medium =>
      [⟨"amarillo_base", .amarillo, "#FBBF24"⟩,
       ⟨"amarillo_dorado", .amarillo, "#F59E0B"⟩,
       ⟨"amarillo_claro", .amarillo, "#FCD34D"⟩]
  | .amarillo, .hard =>
      [⟨"amarillo_base", .amarillo, "#FBBF24"⟩,
       ⟨"amarillo_calido", .amarillo, "#F4B400"⟩,
       ⟨"amarillo_mostaza", .amarillo, "#DFAF2B"⟩]

/-- `function clamp(v, min = 0, max = 1)` (src/page.tsx lines 114-116). -/
def clamp (v : ℚ) (lo : ℚ := 0) (hi : ℚ := 1) : ℚ :=
  max lo (min hi v)

/-- `Number(F.toFixed(2))`: rounding to two decimal places, as exact
rational arithmetic. -/
def round2 (x : ℚ) : ℚ :=
  (round (x * 100) : ℚ) / 100

/-- `function computeFrustration(params)` (src/page.tsx lines 118-142). -/
def computeFrustration (errorsConsecutive hintsUsed retriesSameRound
    latencySec perseveration : ℚ) : Frustration :=
  let e := clamp (errorsConsecutive / 3)
  let h := clamp (hintsUsed / 2)
  let r := clamp (retriesSameRound / 2)
  let t := clamp ((latencySec - 3) / (12 - 3))
  let s := clamp (perseveration / 2)
  let F := 0.35 * e + 0.20 * h + 0.15 * r + 0.20 * t + 0.10 * s
  { value := round2 F, components := ⟨e, h, r, t, s⟩ }

/-- Basic bounds for `clamp` with the default `[0,1]` range. -/
theorem clamp_mem_Icc (v : ℚ) : 0 ≤ clamp v ∧ clamp v ≤ 1 := by
  unfold clamp
  constructor
  · exact le_max_left 0 _
  · exact max_le (by norm_num) (min_le_left 1 v)

/-- `round2` maps `[0, 1]` into `[0, 1]`. -/
theorem round2_mem_Icc {x : ℚ} (h0 : 0 ≤ x) (h1 : x ≤ 1) :
    0 ≤ round2 x ∧ round2 x ≤ 1 := by
  unfold round2
  have hge : (0 : ℤ) ≤ round (x * 100) := by
    rw [round_eq]
    have : (0 : ℤ) ≤ ⌊(1 : ℚ) / 2⌋ := by norm_num
    calc (0 : ℤ) ≤ ⌊(1 : ℚ) / 2⌋ := this
    _ ≤ ⌊x * 100 + 1 / 2⌋ := by
        apply Int.floor_le_floor
        nlinarith
  have hle : round (x * 100) ≤ (100 : ℤ) := by
    rw [round_eq]
    calc ⌊x * 100 + 1 / 2⌋ ≤ ⌊(100 : ℚ) + 1 / 2⌋ := by
          apply Int.floor_le_floor
          nlinarith
    _ = 100 := by norm_num [Int.floor_eq_iff]
  constructor
  · positivity
  · rw [div_le_one (by norm_num)]
    exact_mod_cast hle

/-- `round2` of a value at most `2/5` is at most `2/5`. -/
theorem round2_le_of_le {x : ℚ} (h : x ≤ 0.40) : round2 x ≤ 0.40 := by
  unfold round2
  have hle : round (x * 100) ≤ (40 : ℤ) := by
    rw [round_eq]
    calc ⌊x * 100 + 1 / 2⌋ ≤ ⌊(40 : ℚ) + 1 / 2⌋ := by
          apply Int.floor_le_floor
          nlinarith
    _ = 40 := by norm_num [Int.floor_eq_iff]
  rw [show (0.40 : ℚ) = 40 / 100 by norm_num]
  apply div_le_div_of_nonneg_right _ (by norm_num)
  exact_mod_cast hle

/-- `function nextLevel(current, dir)` (src/page.tsx lines 348-354). -/
def nextLevel (current : Level) (dir : Dir) : Level :=
  let order : List Level := [.easy, .medium, .hard]
  let idx := order.indexOf current
  match dir with
  | .up => order.getD (min (idx + 1) (order.length - 1)) .easy
  | .down => order.getD (idx - 1) .easy

/-- The record assigned to `decision` (src/page.tsx lines 405-411). -/
structure Decision where
  frustration : Frustration
  action : Action
  suggestedLevel : Level
  nextHighFrustrationStreak : ℕ
  nextSuccessStreak : ℕ
deriving DecidableEq, Repr

/-- The local fallback Decision Policy (src/page.tsx lines 456-481),
parametrized over the already-computed frustration value `F`
(`frustration.value` in the source). -/
def localPolicy (F : ℚ) (level : Level) (highFrustrationStreak successStreak : ℕ)
    (correct : Bool) : Action × Level × ℕ × ℕ :=
  let nextHigh : ℕ := if 0.65 ≤ F then highFrustrationStreak + 1 else 0
  let action : Action :=
    if F < 0.35 then .keep
    else if F < 0.65 then .support
    else if 2 ≤ nextHigh then .ease else .support
  let nextSuccess0 : ℕ := if correct then successStreak + 1 else 0
  let suggestedLevel : Level :=
    if action = .ease then nextLevel level .down
    else if 3 ≤ nextSuccess0 then nextLevel level .up
    else level
  let nextSuccess : ℕ :=
    if action = .ease then 0
    else if 3 ≤ nextSuccess0 then 0
    else nextSuccess0
  (action, suggestedLevel, if action = .ease then 0 else nextHigh, nextSuccess)

/-- The whole local fallback branch of the `catch` (src/page.tsx lines
447-481): `computeFrustration` followed by the local Decision Policy. -/
def localFallback (errorsConsecutive hintsUsed retriesSameRound : ℕ)
    (latencySec : ℚ) (perseveration : ℕ) (level : Level)
    (highFrustrationStreak successStreak : ℕ) (correct : Bool) : Decision :=
  let frustration := computeFrustration errorsConsecutive hintsUsed
    retriesSameRound latencySec perseveration
  let p := localPolicy frustration.value level highFrustrationStreak
    successStreak correct
  { frustration := frustration
    action := p.1
    suggestedLevel := p.2.1
    nextHighFrustrationStreak := p.2.2.1
    nextSuccessStreak := p.2.2.2 }

/-- Claim C1: for every raw signal tuple with nonnegative entries, the
Frustration Scorer returns the five components `error/3`, `hint/2`,
`retry/2`, `(latency-3)/9`, `perseveration/2`, each clamped to `[0,1]`,
and the composite `F = 0.35*e + 0.20*h + 0.15*r + 0.20*t + 0.10*s`
rounded to 2 decimals; each component and `F` lie in `[0,1]`. -/
theorem computeFrustration_spec (ec hu rr lat pc : ℚ)
    (hec : 0 ≤ ec) (hhu : 0 ≤ hu) (hrr : 0 ≤ rr) (hlat : 0 ≤ lat)
    (hpc : 0 ≤ pc) :
    (computeFrustration ec hu rr lat pc).components =
      ⟨clamp (ec / 3), clamp (hu / 2), clamp (rr / 2),
       clamp ((lat - 3) / 9), clamp (pc / 2)⟩ ∧
    (computeFrustration ec hu rr lat pc).value =
      round2 (0.35 * clamp (ec / 3) + 0.20 * clamp (hu / 2) +
        0.15 * clamp (rr / 2) + 0.20 * clamp ((lat - 3) / 9) +
        0.10 * clamp (pc / 2)) ∧
    (0 ≤ clamp (ec / 3) ∧ clamp (ec / 3) ≤ 1) ∧
    (0 ≤ clamp (hu / 2) ∧ clamp (hu / 2) ≤ 1) ∧
    (0 ≤ clamp (rr / 2) ∧ clamp (rr / 2) ≤ 1) ∧
    (0 ≤ clamp ((lat - 3) / 9) ∧ clamp ((lat - 3) / 9) ≤ 1) ∧
    (0 ≤ clamp (pc / 2) ∧ clamp (pc / 2) ≤ 1) ∧
    0 ≤ (computeFrustration ec hu rr lat pc).value ∧
    (computeFrustration ec hu rr lat pc).value ≤ 1 := by
  have h9 : ((12 : ℚ) - 3) = 9 := by norm_num
  obtain ⟨e0, e1⟩ := clamp_mem_Icc (ec / 3)
  obtain ⟨h0, h1⟩ := clamp_mem_Icc (hu / 2)
  obtain ⟨r0, r1⟩ := clamp_mem_Icc (rr / 2)
  obtain ⟨t0, t1⟩ := clamp_mem_Icc ((lat - 3) / 9)
  obtain ⟨s0, s1⟩ := clamp_mem_Icc (pc / 2)
  have hF0 : 0 ≤ 0.35 * clamp (ec / 3) + 0.20 * clamp (hu / 2) +
      0.15 * clamp (rr / 2) + 0.20 * clamp ((lat - 3) / 9) +
      0.10 * clamp (pc / 2) := by nlinarith
  have hF1 : 0.35 * clamp (ec / 3) + 0.20 * clamp (hu / 2) +
      0.15 * clamp (rr / 2) + 0.20 * clamp ((lat - 3) / 9) +
      0.10 * clamp (pc / 2) ≤ 1 := by nlinarith
  obtain ⟨v0, v1⟩ := round2_mem_Icc hF0 hF1
  refine ⟨by simp [computeFrustration, h9], by simp [computeFrustration, h9],
    ⟨e0, e1⟩, ⟨h0, h1⟩, ⟨r0, r1⟩, ⟨t0, t1⟩, ⟨s0, s1⟩, ?_, ?_⟩
  · simpa [computeFrustration, h9] using v0
  · simpa [computeFrustration, h9] using v1

/-- Witness for C1 at the spec's example scenario 1 (3 errors, 0 hints,
2 retries, 3s latency, 0 perseveration). -/
theorem computeFrustration_spec_witness :
    ((0 : ℚ) ≤ 3 ∧ (0 : ℚ) ≤ 0 ∧ (0 : ℚ) ≤ 2) ∧
    (0 ≤ (computeFrustration 3 0 2 3 0).value ∧
      (computeFrustration 3 0 2 3 0).value ≤ 1) :=
  ⟨⟨by norm_num, by norm_num, by norm_num⟩,
   (computeFrustration_spec 3 0 2 3 0 (by norm_num) (by norm_num)
     (by norm_num) (by norm_num) (by norm_num)).2.2.2.2.2.2.2⟩

/-- Claim C2: for every frustration value `F` and prior streak, the
local Decision Policy resolves `keep` when `F < 0.35`, `support` when
`0.35 ≤ F < 0.65`, and when `F ≥ 0.65` resolves `ease` if the
incremented streak reaches 2 and `support` otherwise. -/
theorem localPolicy_action_spec (F : ℚ) (level : Level) (high succ : ℕ)
    (correct : Bool) :
    (F < 0.35 → (localPolicy F level high succ correct).1 = .keep) ∧
    (0.35 ≤ F → F < 0.65 → (localPolicy F level high succ correct).1 = .support) ∧
    (0.65 ≤ F → 2 ≤ high + 1 → (localPolicy F level high succ correct).1 = .ease) ∧
    (0.65 ≤ F → high + 1 < 2 → (localPolicy F level high succ correct).1 = .support) := by
  refine ⟨fun h1 => ?_, fun h1 h2 => ?_, fun h1 h2 => ?_, fun h1 h2 => ?_⟩ <;>
    simp only [localPolicy] <;> split_ifs <;> first | rfl | omega | linarith

/-- Witness for C2: at `F = 0.70` with a prior streak of 1 the policy
resolves `ease`. -/
theorem localPolicy_action_spec_witness :
    (0.65 : ℚ) ≤ 0.70 ∧ 2 ≤ 1 + 1 ∧
      (localPolicy 0.70 .easy 1 0 false).1 = .ease :=
  ⟨by norm_num, by norm_num,
   (localPolicy_action_spec 0.70 .easy 1 0 false).2.2.1 (by norm_num) (by norm_num)⟩

/-- Claim C3: the returned `nextHighFrustrationStreak` is 0 whenever
`F < 0.65` or whenever the resolved action is `ease`, and is the
previous streak plus 1 whenever `F ≥ 0.65` and the action is not
`ease`. -/
theorem localPolicy_nextHigh_spec (F : ℚ) (level : Level) (high succ : ℕ)
    (correct : Bool) :
    (F < 0.65 → (localPolicy F level high succ correct).2.2.1 = 0) ∧
    ((localPolicy F level high succ correct).1 = .ease →
      (localPolicy F level high succ correct).2.2.1 = 0) ∧
    (0.65 ≤ F → (localPolicy F level high succ correct).1 ≠ .ease →
      (localPolicy F level high succ correct).2.2.1 = high + 1) := by
  refine ⟨fun h1 => ?_, fun h1 => ?_, fun h1 h2 => ?_⟩ <;>
    simp only [localPolicy] at * <;> split_ifs at * <;>
      first | rfl | omega | linarith | simp_all

/-- Witness for C3: at `F = 0.70` with no prior streak the action is
`support` and the streak is incremented to 1. -/
theorem localPolicy_nextHigh_spec_witness :
    (0.65 : ℚ) ≤ 0.70 ∧ (localPolicy 0.70 .easy 0 0 false).1 ≠ .ease ∧
      (localPolicy 0.70 .easy 0 0 false).2.2.1 = 0 + 1 :=
  ⟨by norm_num, by (norm_num [localPolicy]; decide),
   (localPolicy_nextHigh_spec 0.70 .easy 0 0 false).2.2 (by norm_num)
     (by norm_num [localPolicy]; decide)⟩

/-- Claim C4: the candidate success streak is the previous streak plus 1
on a correct trial and 0 on an incorrect one; on `ease` the suggested
level is one step down (clamped) and the streak resets; otherwise, a
candidate streak of at least 3 means one step up (clamped) and a reset,
and below 3 the level is unchanged and the candidate streak is kept. -/
theorem localPolicy_level_success_spec (F : ℚ) (level : Level)
    (high succ : ℕ) (correct : Bool) :
    ((localPolicy F level high succ correct).1 = .ease →
      (localPolicy F level high succ correct).2.1 = nextLevel level .down ∧
      (localPolicy F level high succ correct).2.2.2 = 0) ∧
    ((localPolicy F level high succ correct).1 ≠ .ease →
      3 ≤ (if correct then succ + 1 else 0) →
      (localPolicy F level high succ correct).2.1 = nextLevel level .up ∧
      (localPolicy F level high succ correct).2.2.2 = 0) ∧
    ((localPolicy F level high succ correct).1 ≠ .ease →
      (if correct then succ + 1 else 0) < 3 →
      (localPolicy F level high succ correct).2.1 = level ∧
      (localPolicy F level high succ correct).2.2.2 =
        (if correct then succ + 1 else 0)) ∧
    nextLevel .easy .down = .easy ∧ nextLevel .medium .down = .easy ∧
    nextLevel .hard .down = .medium ∧ nextLevel .easy .up = .medium ∧
    nextLevel .medium .up = .hard ∧ nextLevel .hard .up = .hard := by
  refine ⟨fun h1 => ?_, fun h1 h2 => ?_, fun h1 h2 => ?_,
    by decide, by decide, by decide, by decide, by decide, by decide⟩ <;>
    simp only [localPolicy] at * <;> split_ifs at * <;>
      first | exact ⟨rfl, rfl⟩ | omega | simp_all

/-- Witness for C4: three consecutive successes at low frustration move
the level one step up and reset the streak. -/
theorem localPolicy_level_success_spec_witness :
    (localPolicy 0.10 .easy 0 2 true).1 ≠ .ease ∧
    3 ≤ (if true then 2 + 1 else 0) ∧
    ((localPolicy 0.10 .easy 0 2 true).2.1 = nextLevel .easy .up ∧
      (localPolicy 0.10 .easy 0 2 true).2.2.2 = 0) :=
  ⟨by (norm_num [localPolicy]; decide), by norm_num,
   (localPolicy_level_success_spec 0.10 .easy 0 2 true).2.1
     (by (norm_num [localPolicy]; decide)) (by norm_num)⟩

/-- A JSON body returned by the remote decision service: either a
payload that is `DecisionResult`-shaped, or some other valid JSON
value. -/
inductive Json
  | decision (d : Decision)
  | other
deriving DecidableEq, Repr

/-- Outcome of the `fetch` call in `onPick` (src/page.tsx lines
414-439): the promise rejects (network error or the 800ms abort), or an
HTTP response arrives with an `ok` flag and a body that either parses
as JSON or makes `res.json()` reject. -/
inductive RemoteResponse
  | failure
  | response (ok : Bool) (body : Option Json)
deriving DecidableEq, Repr

/-- What the `try`/`catch` block of `onPick` leaves in `decision` and
`source` (src/page.tsx lines 404-482). -/
structure GatewayResult where
  payload : Json
  source : Source
deriving DecidableEq, Repr

/-- The Decision Gateway (src/page.tsx lines 404-482): any exception in
the `try` block (fetch rejection, timeout abort, the `!res.ok` throw,
or a `res.json()` parse failure) falls through to the local fallback;
an `ok` response whose body parses as JSON is trusted verbatim. -/
def decisionGateway (resp : RemoteResponse)
    (errorsConsecutive hintsUsed retriesSameRound : ℕ) (latencySec : ℚ)
    (perseveration : ℕ) (level : Level)
    (highFrustrationStreak successStreak : ℕ) (correct : Bool) :
    GatewayResult :=
  let localResult : GatewayResult :=
    { payload := .decision (localFallback errorsConsecutive hintsUsed
        retriesSameRound latencySec perseveration level
        highFrustrationStreak successStreak correct)
      source := .fallback }
  match resp with
  | .failure => localResult
  | .response false _ => localResult
  | .response true none => localResult
  | .response true (some j) => { payload := j, source := .backend }

/-- Counterexample to claim C5: a 2xx response whose body parses as
JSON but is not `DecisionResult`-shaped is trusted verbatim and tagged
`backend`; it is not handed to the local fallback, so it is not treated
identically to a connection failure. -/
theorem decisionGateway_malformed_counterexample :
    (decisionGateway (.response true (some .other)) 0 0 0 0 0 .easy 0 0
      true).source = .backend ∧
    (decisionGateway .failure 0 0 0 0 0 .easy 0 0 true).source = .fallback ∧
    decisionGateway (.response true (some .other)) 0 0 0 0 0 .easy 0 0 true ≠
      decisionGateway .failure 0 0 0 0 0 .easy 0 0 true := by
  refine ⟨rfl, rfl, ?_⟩
  intro h
  have : Source.backend = Source.fallback := congrArg GatewayResult.source h
  exact absurd this (by decide)

/-- Claim C5 (amended): the gateway always yields a result; on a
network error or timeout, a non-success HTTP status, or a body that
fails JSON parsing it computes the result with the local Policy and
Scorer and tags it `fallback`; on a success response whose body parses
as JSON it returns the payload verbatim tagged `backend`, even when the
payload is not `DecisionResult`-shaped. -/
theorem decisionGateway_spec (ec hu rr : ℕ) (lat : ℚ) (pc : ℕ)
    (level : Level) (high succ : ℕ) (correct : Bool) :
    (decisionGateway .failure ec hu rr lat pc level high succ correct =
      ⟨.decision (localFallback ec hu rr lat pc level high succ correct),
       .fallback⟩) ∧
    (∀ body, decisionGateway (.response false body) ec hu rr lat pc level
        high succ correct =
      ⟨.decision (localFallback ec hu rr lat pc level high succ correct),
       .fallback⟩) ∧
    (decisionGateway (.response true none) ec hu rr lat pc level high succ
        correct =
      ⟨.decision (localFallback ec hu rr lat pc level high succ correct),
       .fallback⟩) ∧
    (∀ j, decisionGateway (.response true (some j)) ec hu rr lat pc level
        high succ correct = ⟨j, .backend⟩) :=
  ⟨rfl, fun _ => rfl, rfl, fun _ => rfl⟩

/-- One iteration of the Fisher-Yates loop body
`[a[i], a[j]] = [a[j], a[i]]` (src/page.tsx line 148). -/
def swapList [Inhabited α] (l : List α) (i j : ℕ) : List α :=
  (l.set i (l.getD j default)).set j (l.getD i default)

/-- Setting one position changes the element counts of a list by
removing the old entry and adding the new one. -/
theorem count_set_add [DecidableEq α] (l : List α) (i : ℕ) (b : α)
    (h : i < l.length) (x : α) :
    (l.set i b).count x + (if l.get ⟨i, h⟩ = x then 1 else 0)
      = l.count x + (if b = x then 1 else 0) := by
  induction l generalizing i with
  | nil => simp at h
  | cons a l ih =>
    cases i with
    | zero =>
      simp only [List.set, List.get, List.count_cons, beq_iff_eq]
      split_ifs <;> omega
    | succ i =>
      have hi : i < l.length := by simpa using h
      have := ih i hi
      simp only [List.set, List.get, List.count_cons, beq_iff_eq] at this ⊢
      split_ifs at this ⊢ <;> omega

/-- Swapping two in-range positions permutes the list. -/
theorem swapList_perm [DecidableEq α] [Inhabited α] (l : List α) (i j : ℕ)
    (hi : i < l.length) (hj : j < l.length) : (swapList l i j).Perm l := by
  unfold swapList
  have hgi : l.getD i default = l.get ⟨i, hi⟩ := by
    simp [List.getD_eq_getElem?_getD, List.getElem?_eq_getElem hi,
      List.get_eq_getElem]
  have hgj : l.getD j default = l.get ⟨j, hj⟩ := by
    simp [List.getD_eq_getElem?_getD, List.getElem?_eq_getElem hj,
      List.get_eq_getElem]
  rw [List.perm_iff_count]
  intro x
  have hj2 : j < (l.set i (l.getD j default)).length := by simpa using hj
  have h1 := count_set_add l i (l.getD j default) hi x
  have h2 := count_set_add (l.set i (l.getD j default)) j (l.getD i default)
    hj2 x
  have hmid : (l.set i (l.getD j default)).get ⟨j, hj2⟩ = l.getD j default := by
    rw [List.get_eq_getElem, List.getElem_set]
    split
    · rfl
    · simp [List.getD_eq_getElem?_getD, List.getElem?_eq_getElem hj]
  rw [hmid] at h2
  rw [← hgi] at h1
  omega

/-- The Fisher-Yates loop of `shuffle` (src/page.tsx lines 146-149),
with the random draw at index `i` modelled as `js i % (i + 1)`
(`Math.floor(Math.random() * (i + 1))` is a uniform integer in
`[0, i]`). -/
def shuffleAux [Inhabited α] (js : ℕ → ℕ) : ℕ → List α → List α
  | 0, a => a
  | i + 1, a => shuffleAux js i (swapList a (i + 1) (js (i + 1) % (i + 2)))

/-- `function shuffle(arr)` (src/page.tsx lines 144-151). -/
def shuffle [Inhabited α] (l : List α) (js : ℕ → ℕ) : List α :=
  shuffleAux js (l.length - 1) l

/-- `swapList` preserves length. -/
theorem swapList_length [Inhabited α] (l : List α) (i j : ℕ) :
    (swapList l i j).length = l.length := by
  simp [swapList]

/-- The Fisher-Yates loop permutes the list whenever the loop index is
in range. -/
theorem shuffleAux_perm [DecidableEq α] [Inhabited α] (js : ℕ → ℕ) :
    ∀ (n : ℕ) (l : List α), n < l.length → (shuffleAux js n l).Perm l := by
  intro n
  induction n with
  | zero => intro l _; exact List.Perm.refl l
  | succ i ih =>
    intro l hn
    have hij : js (i + 1) % (i + 2) < l.length :=
      lt_of_le_of_lt (Nat.le_of_lt_succ (Nat.mod_lt _ (Nat.succ_pos _))) hn
    have hswap := swapList_perm l (i + 1) (js (i + 1) % (i + 2)) hn hij
    have hlen : i < (swapList l (i + 1) (js (i + 1) % (i + 2))).length := by
      rw [swapList_length]; omega
    exact (ih _ hlen).trans hswap

/-- `shuffle` returns a permutation of its input. -/
theorem shuffle_perm [DecidableEq α] [Inhabited α] (l : List α)
    (js : ℕ → ℕ) : (shuffle l js).Perm l := by
  unfold shuffle
  match l with
  | [] => exact List.Perm.refl _
  | a :: l => exact shuffleAux_perm js _ _ (by simp)

/-- `const all: ColorKey[] = ['rojo', 'azul', 'amarillo']`
(src/page.tsx line 166). -/
def allColors : List ColorKey := [.rojo, .azul, .amarillo]

/-- `const candidates = prevTarget ? all.filter(c => c !== prevTarget) : all`
(src/page.tsx line 168). -/
def roundCandidates (prevTarget : Option ColorKey) : List ColorKey :=
  match prevTarget with
  | some p => allColors.filter (fun c => c ≠ p)
  | none => allColors

/-- `candidates[Math.floor(Math.random() * candidates.length)]`
(src/page.tsx line 169), with the uniform index draw modelled as
`jt % candidates.length`. -/
def roundTarget (prevTarget : Option ColorKey) (jt : ℕ) : ColorKey :=
  (roundCandidates prevTarget).getD
    (jt % (roundCandidates prevTarget).length) .rojo

/-- `function pickOne(arr)` (src/page.tsx lines 153-155), with the
uniform index draw modelled as `j % arr.length`. -/
def pickOne [Inhabited α] (arr : List α) (j : ℕ) : α :=
  arr.getD (j % arr.length) default

/-- `function makeBaseSwatch(color)` (src/page.tsx lines 157-163); the
random id suffix is the `rid` parameter. -/
def makeBaseSwatch (color : ColorKey) (rid : String) : Swatch :=
  { id := colorName color ++ "_" ++ rid
    label := color
    hex := BASE_COLOR color }

/-- `function makeRound(prevTarget, level)` (src/page.tsx lines
165-193).  `jt` drives the target draw, `jv` the variant draw, `js` the
shuffle, `ridC`/`ridD` the fresh id suffixes, and `roundId` the
`Date.now()`-based round id. -/
def makeRound (prevTarget : Option ColorKey) (level : Level) (jt jv : ℕ)
    (js : ℕ → ℕ) (ridC : String) (ridD : ColorKey → String)
    (roundId : String) : Round :=
  let target := roundTarget prevTarget jt
  let correctSwatch : Swatch :=
    if level = .easy then makeBaseSwatch target ridC
    else { pickOne (SWATCHES target level) jv with
           id := colorName target ++ "_" ++ ridC }
  let distractors := (allColors.filter (fun c => c ≠ target)).map
    (fun c => makeBaseSwatch c (ridD c))
  let options := shuffle (correctSwatch :: distractors) js
  { id := roundId, target := target, level := level, options := options }

/-- Claim C6: the target of a round with a previous target always
differs from it and is drawn from the candidate list, which holds each
remaining category exactly once (so a uniform index gives a uniform
draw over the remaining categories); with no previous target the
candidate list is the full category set, each category once. -/
theorem roundTarget_spec (p c : ColorKey) (jt : ℕ) :
    roundTarget (some p) jt ≠ p ∧
    roundTarget (some p) jt ∈ roundCandidates (some p) ∧
    (roundCandidates (some p)).count c = (if c = p then 0 else 1) ∧
    roundCandidates none = allColors ∧
    (roundCandidates none).count c = 1 ∧
    roundTarget none jt ∈ roundCandidates none := by
  have hlen : ∀ q : ColorKey, (roundCandidates (some q)).length = 2 := by
    decide
  have hmemP : roundTarget (some p) jt ∈ roundCandidates (some p) := by
    unfold roundTarget
    have hlt : jt % (roundCandidates (some p)).length <
        (roundCandidates (some p)).length := Nat.mod_lt _ (by rw [hlen]; omega)
    rw [List.getD_eq_getElem?_getD, List.getElem?_eq_getElem hlt]
    exact List.getElem_mem _
  have hmemN : roundTarget none jt ∈ roundCandidates none := by
    unfold roundTarget
    have hlt : jt % (roundCandidates none).length <
        (roundCandidates none).length := Nat.mod_lt _ (by decide)
    rw [List.getD_eq_getElem?_getD, List.getElem?_eq_getElem hlt]
    exact List.getElem_mem _
  have hcount : ∀ q d : ColorKey,
      (roundCandidates (some q)).count d = (if d = q then 0 else 1) := by
    decide
  have hnone : ∀ d : ColorKey, (roundCandidates none).count d = 1 := by
    decide
  refine ⟨?_, hmemP, hcount p c, by decide, hnone c, hmemN⟩
  intro heq
  have h0 : (roundCandidates (some p)).count p = 0 := by
    simpa using hcount p p
  rw [heq] at hmemP
  exact absurd hmemP (List.count_eq_zero.mp h0)

/-- Witness for C6 at a concrete previous target and draw. -/
theorem roundTarget_spec_witness :
    roundTarget (some .rojo) 0 ≠ .rojo ∧
    (roundCandidates (some .rojo)).count .azul = 1 :=
  ⟨(roundTarget_spec .rojo .azul 0).1, by
    have h := (roundTarget_spec .rojo .azul 0).2.2.1
    simpa using h⟩

/-- `pickOne` returns an element of a nonempty list. -/
theorem pickOne_mem [Inhabited α] (arr : List α) (j : ℕ) (h : arr ≠ []) :
    pickOne arr j ∈ arr := by
  unfold pickOne
  have hlt : j % arr.length < arr.length :=
    Nat.mod_lt _ (List.length_pos.mpr h)
  rw [List.getD_eq_getElem?_getD, List.getElem?_eq_getElem hlt]
  exact List.getElem_mem _

/-- Every swatch registered for a category carries that category as its
label. -/
theorem SWATCHES_label (t : ColorKey) (lvl : Level) :
    ∀ s ∈ SWATCHES t lvl, s.label = t := by
  revert t lvl; decide

/-- No swatch pool is empty. -/
theorem SWATCHES_ne_nil (t : ColorKey) (lvl : Level) :
    SWATCHES t lvl ≠ [] := by
  revert t lvl; decide

/-- The correct swatch assembled by `makeRound` always carries the
target as its label, at every difficulty level. -/
theorem makeRound_correctSwatch_label (t : ColorKey) (lvl : Level)
    (jv : ℕ) (ridC : String) :
    (if lvl = .easy then makeBaseSwatch t ridC
     else { pickOne (SWATCHES t lvl) jv with
            id := colorName t ++ "_" ++ ridC }).label = t := by
  split
  · rfl
  · show (pickOne (SWATCHES t lvl) jv).label = t
    exact SWATCHES_label t lvl _ (pickOne_mem _ jv (SWATCHES_ne_nil t lvl))

/-- The options of a round are a permutation of the correct swatch
followed by the distractors. -/
theorem makeRound_options_perm (prev : Option ColorKey) (lvl : Level)
    (jt jv : ℕ) (js : ℕ → ℕ) (ridC : String) (ridD : ColorKey → String)
    (roundId : String) :
    (makeRound prev lvl jt jv js ridC ridD roundId).options.Perm
      ((if lvl = .easy then makeBaseSwatch (roundTarget prev jt) ridC
        else { pickOne (SWATCHES (roundTarget prev jt) lvl) jv with
               id := colorName (roundTarget prev jt) ++ "_" ++ ridC }) ::
       (allColors.filter (fun c => c ≠ roundTarget prev jt)).map
         (fun c => makeBaseSwatch c (ridD c))) :=
  shuffle_perm _ _

/-- Claim C7: every trial produced by the Round Generator has exactly
one option whose label equals the target, and every non-target option
carries its category's canonical base hex value, at every difficulty
level. -/
theorem makeRound_options_spec (prev : Option ColorKey) (lvl : Level)
    (jt jv : ℕ) (js : ℕ → ℕ) (ridC : String) (ridD : ColorKey → String)
    (roundId : String) :
    (makeRound prev lvl jt jv js ridC ridD roundId).options.countP
      (fun o => decide
        (o.label = (makeRound prev lvl jt jv js ridC ridD roundId).target))
      = 1 ∧
    ∀ o ∈ (makeRound prev lvl jt jv js ridC ridD roundId).options,
      o.label ≠ (makeRound prev lvl jt jv js ridC ridD roundId).target →
      o.hex = BASE_COLOR o.label := by
  have htgt : (makeRound prev lvl jt jv js ridC ridD roundId).target =
      roundTarget prev jt := rfl
  have hperm := makeRound_options_perm prev lvl jt jv js ridC ridD roundId
  have hlabel := makeRound_correctSwatch_label (roundTarget prev jt) lvl jv ridC
  constructor
  · rw [htgt, hperm.countP_eq]
    have h1 : (decide ((if lvl = .easy then
        makeBaseSwatch (roundTarget prev jt) ridC
        else { pickOne (SWATCHES (roundTarget prev jt) lvl) jv with
               id := colorName (roundTarget prev jt) ++ "_" ++ ridC }).label =
          roundTarget prev jt)) = true := by
      rw [hlabel]; simp
    have h0 : ((allColors.filter (fun c => c ≠ roundTarget prev jt)).map
        (fun c => makeBaseSwatch c (ridD c))).countP
          (fun o => decide (o.label = roundTarget prev jt)) = 0 := by
      rw [List.countP_eq_zero]
      intro o ho
      obtain ⟨c, hc, rfl⟩ := List.mem_map.mp ho
      have hcne : c ≠ roundTarget prev jt := by
        have := List.mem_filter.mp hc
        simpa using this.2
      simpa [makeBaseSwatch] using hcne
    simp [List.countP_cons, h0, h1]
    intro a _ ha
    simpa [makeBaseSwatch] using ha
  · intro o ho hne
    rw [htgt] at hne
    have ho2 := hperm.mem_iff.mp ho
    rcases List.mem_cons.mp ho2 with hcase | hcase
    · exfalso
      apply hne
      rw [hcase]
      exact hlabel
    · obtain ⟨c, hc, rfl⟩ := List.mem_map.mp hcase
      rfl

/-- Witness for C7 at a concrete round. -/
theorem makeRound_options_spec_witness :
    (makeRound none .medium 0 0 (fun n => n) "x" (fun _ => "y")
      "r1").options.countP
      (fun o => decide
        (o.label = (makeRound none .medium 0 0 (fun n => n) "x"
          (fun _ => "y") "r1").target)) = 1 :=
  (makeRound_options_spec none .medium 0 0 (fun n => n) "x" (fun _ => "y")
    "r1").1

/-- One append to the attempt log:
`[newAttempt, ...prev].slice(0, MAX_ATTEMPTS)` (src/page.tsx lines
503-523). -/
def appendAttempt (prev : List Attempt) (a : Attempt) : List Attempt :=
  (a :: prev).take MAX_ATTEMPTS

/-- A sequence of choose events applied to an initial log, oldest
event first. -/
def applyAppends (init : List Attempt) (as : List Attempt) : List Attempt :=
  as.foldl appendAttempt init

/-- Truncating the suffix before an append never changes a truncated
result. -/
theorem take_append_take (k : ℕ) (xs ys : List α) :
    (xs ++ ys.take k).take k = (xs ++ ys).take k := by
  rw [List.take_append_eq_append_take, List.take_append_eq_append_take,
    List.take_take, Nat.min_eq_left (Nat.sub_le k xs.length)]

/-- Claim C8: after any number of appended attempt records the log
never exceeds the cap of 100 records, and it always holds the most
recent records, the oldest dropped first. -/
theorem attemptLog_bounded (init as : List Attempt)
    (hinit : init.length ≤ MAX_ATTEMPTS) :
    (applyAppends init as).length ≤ MAX_ATTEMPTS ∧
    applyAppends init as = (as.reverse ++ init).take MAX_ATTEMPTS := by
  induction as generalizing init with
  | nil =>
    simpa [applyAppends, List.take_of_length_le hinit] using hinit
  | cons a as ih =>
    have h1 : ((a :: init).take MAX_ATTEMPTS).length ≤ MAX_ATTEMPTS := by
      simp [List.length_take]
    have step : applyAppends init (a :: as) =
        applyAppends ((a :: init).take MAX_ATTEMPTS) as := rfl
    obtain ⟨ihl, ihe⟩ := ih ((a :: init).take MAX_ATTEMPTS) h1
    refine ⟨step ▸ ihl, ?_⟩
    rw [step, ihe, take_append_take, List.reverse_cons, List.append_assoc]
    rfl

/-- A sample attempt record used by witnesses. -/
def sampleAttempt : Attempt :=
  { roundId := "r1"
    target := .rojo
    chosen := .rojo
    correct := true
    hintsUsed := 0
    ts := 0
    latencySec := 1
    frustration := 0
    frustrationComponents := ⟨0, 0, 0, 0, 0⟩
    action := .keep
    source := .fallback
    levelBefore := .easy
    levelAfter := .easy
    rule := .none }

/-- Witness for C8: a single append to the empty log. -/
theorem attemptLog_bounded_witness :
    ([] : List Attempt).length ≤ MAX_ATTEMPTS ∧
    ((applyAppends [] [sampleAttempt]).length ≤ MAX_ATTEMPTS ∧
      applyAppends [] [sampleAttempt] =
        ([sampleAttempt].reverse ++ []).take MAX_ATTEMPTS) :=
  ⟨by simp, attemptLog_bounded [] [sampleAttempt] (by simp)⟩

/-- Claim C10: the in-memory log is ordered newest-first: each choose
event prepends its record, so right after an append the record at
index 0 is the one just written. -/
theorem appendAttempt_newest_first (prev : List Attempt) (a : Attempt) :
    (appendAttempt prev a).head? = some a ∧
    (appendAttempt prev a)[0]? = some a := by
  have h : appendAttempt prev a = a :: prev.take 99 := by
    show (a :: prev).take (99 + 1) = a :: prev.take 99
    rw [List.take_succ_cons]
  rw [h]
  exact ⟨rfl, by simp⟩

/-- The metric updates at the top of `onPick` (src/page.tsx lines
374-402): the `(errorsConsecutive, retriesSameRound, perseveration)`
values handed to the decision step. -/
def nextSignals (correct : Bool) (errorsConsecutive retriesSameRound
    perseveration : ℕ) (lastWrongChoice : Option String)
    (swatchId : String) : ℕ × ℕ × ℕ :=
  if correct then (0, 0, 0)
  else (errorsConsecutive + 1, retriesSameRound + 1,
    if lastWrongChoice = some swatchId then perseveration + 1
    else perseveration)

/-- Claim C9: on a correct choice the signals sent to the decision step
have errors, retries and perseveration already reset to 0, so the local
frustration value is at most 0.40; consequently the local action is
never `ease` and the high-frustration streak resets to 0. -/
theorem correct_pick_spec (ec rr pc : ℕ) (lw : Option String)
    (sid : String) (hintsUsed : ℕ) (lat : ℚ) (level : Level)
    (high succ : ℕ) :
    nextSignals true ec rr pc lw sid = (0, 0, 0) ∧
    (localFallback 0 hintsUsed 0 lat 0 level high succ
      true).frustration.value ≤ 0.40 ∧
    (localFallback 0 hintsUsed 0 lat 0 level high succ true).action ≠
      .ease ∧
    (localFallback 0 hintsUsed 0 lat 0 level high succ
      true).nextHighFrustrationStreak = 0 := by
  have hch := clamp_mem_Icc ((hintsUsed : ℚ) / 2)
  have hct := clamp_mem_Icc ((lat - 3) / (12 - 3))
  have hz3 : clamp (((0 : ℕ) : ℚ) / 3) = 0 := by norm_num [clamp]
  have hz2 : clamp (((0 : ℕ) : ℚ) / 2) = 0 := by norm_num [clamp]
  have hraw : 0.35 * clamp (((0 : ℕ) : ℚ) / 3) +
      0.20 * clamp ((hintsUsed : ℚ) / 2) +
      0.15 * clamp (((0 : ℕ) : ℚ) / 2) +
      0.20 * clamp ((lat - 3) / (12 - 3)) +
      0.10 * clamp (((0 : ℕ) : ℚ) / 2) ≤ 0.40 := by
    rw [hz3, hz2]
    nlinarith [hch.1, hch.2, hct.1, hct.2]
  have hvaleq : (localFallback 0 hintsUsed 0 lat 0 level high succ
      true).frustration.value =
      round2 (0.35 * clamp (((0 : ℕ) : ℚ) / 3) +
        0.20 * clamp ((hintsUsed : ℚ) / 2) +
        0.15 * clamp (((0 : ℕ) : ℚ) / 2) +
        0.20 * clamp ((lat - 3) / (12 - 3)) +
        0.10 * clamp (((0 : ℕ) : ℚ) / 2)) := rfl
  have hv : (localFallback 0 hintsUsed 0 lat 0 level high succ
      true).frustration.value ≤ 0.40 := by
    rw [hvaleq]
    exact round2_le_of_le hraw
  have hv65 : (localFallback 0 hintsUsed 0 lat 0 level high succ
      true).frustration.value < 0.65 :=
    lt_of_le_of_lt hv (by norm_num)
  have hact : (localFallback 0 hintsUsed 0 lat 0 level high succ
      true).action ≠ .ease ∧
      (localFallback 0 hintsUsed 0 lat 0 level high succ
        true).nextHighFrustrationStreak = 0 := by
    show (localPolicy (localFallback 0 hintsUsed 0 lat 0 level high succ
        true).frustration.value level high succ true).1 ≠ .ease ∧
      (localPolicy (localFallback 0 hintsUsed 0 lat 0 level high succ
        true).frustration.value level high succ true).2.2.1 = 0
    generalize hF : (localFallback 0 hintsUsed 0 lat 0 level high succ
      true).frustration.value = F at hv65
    simp only [localPolicy]
    split_ifs <;> first | linarith | simp
  exact ⟨rfl, hv, hact.1, hact.2⟩

/-- Witness for C9 at a concrete correct pick. -/
theorem correct_pick_spec_witness :
    nextSignals true 2 1 1 none "s" = (0, 0, 0) ∧
    (localFallback 0 1 0 5 0 .easy 3 0 true).frustration.value ≤ 0.40 ∧
    (localFallback 0 1 0 5 0 .easy 3 0 true).action ≠ .ease ∧
    (localFallback 0 1 0 5 0 .easy 3 0 true).nextHighFrustrationStreak
      = 0 :=
  correct_pick_spec 2 1 1 none "s" 1 5 .easy 3 0
